import Mathlib

/-!
Shallow embedding of `src/index.ts` of `create-mock-bun`, a test-double
factory: a callable recorder (`createBaseMock`), a recursive proxy-based
stand-in generator (`createMock`), and thin façades (`isMock`,
`createMockWithDefaults`, `getCallInfo`).

Modelling conventions:
* JavaScript runtime values are the inductive `JSVal`; machine objects and
  functions carry their own enumerable string properties as association
  lists (insertion-ordered, matching `Object.keys` order).
* Fallible JavaScript evaluation (property access on `null`/`undefined`
  throws a `TypeError`) is `Except String _`.
* The recorder's mutable closure state (`mock.calls`, `mock.results`,
  `impl`, `onceQueue`) is the structure `MockStateG`; each invocation is
  the explicit state transformer `invokeG`.  A configured behavior is a
  closure: it receives the argument tuple and — since a JS closure can
  reach the live `fn.mock` arrays — the recorder state visible at the
  moment it runs.  `invokeG` is parametric in the behavior type `B` and in
  an application function `app`, so that reentrant behaviors (behaviors
  that themselves invoke the recorder, mutating its state) are expressible;
  `Beh`/`invoke` is the ordinary non-reentrant instance where a behavior
  just observes the logs and produces a result or a thrown error.
-/

namespace CMBun

/-- A JavaScript runtime value.  `func` and `obj` carry their own
enumerable string-keyed properties in insertion order; `arr` is an
`Array`.  (Symbols and prototype-chain properties are outside the model;
no claim depends on them.) -/
inductive JSVal where
  | undef
  | null
  | bool (b : Bool)
  | num (n : Nat)
  | str (s : String)
  | func (props : List (String × JSVal))
  | obj (props : List (String × JSVal))
  | arr (elems : List JSVal)

/-- The JavaScript `typeof` operator (note `typeof null === "object"`). -/
def typeofStr : JSVal → String
  | .undef => "undefined"
  | .null => "object"
  | .bool _ => "boolean"
  | .num _ => "number"
  | .str _ => "string"
  | .func _ => "function"
  | .obj _ => "object"
  | .arr _ => "object"

/-- JavaScript truthiness, as used by `a || b`. -/
def truthy : JSVal → Bool
  | .undef => false
  | .null => false
  | .bool b => b
  | .num 0 => false
  | .num (_ + 1) => true
  | .str "" => false
  | .str _ => true
  | .func _ => true
  | .obj _ => true
  | .arr _ => true

/-- `Array.isArray`. -/
def isArr : JSVal → Bool
  | .arr _ => true
  | _ => false

/-- Strict comparison with `undefined` (`value === undefined`). -/
def isUndef : JSVal → Bool
  | .undef => true
  | _ => false

/-- First binding of a key in a property list. -/
def lookupProp : List (String × JSVal) → String → Option JSVal
  | [], _ => none
  | (k0, v0) :: rest, k => if k0 = k then some v0 else lookupProp rest k

/-- Property read defaulting to `undefined` for an absent key. -/
def lookupD (ps : List (String × JSVal)) (k : String) : JSVal :=
  (lookupProp ps k).getD (.undef)

/-- Property write: update in place if the key exists (JS keeps the
original insertion position), otherwise append. -/
def setProp : List (String × JSVal) → String → JSVal → List (String × JSVal)
  | [], k, v => [(k, v)]
  | (k0, v0) :: rest, k, v =>
      if k0 = k then (k0, v) :: rest else (k0, v0) :: setProp rest k v

/-- The `in` operator on an object-like value (own properties). -/
def hasProp : JSVal → String → Bool
  | .func ps, k => (lookupProp ps k).isSome
  | .obj ps, k => (lookupProp ps k).isSome
  | .arr _, k => k = "length"
  | _, _ => false

/-- Property access `base[k]`: throws `TypeError` on `null`/`undefined`,
otherwise yields the property value or `undefined`. -/
def getProp : JSVal → String → Except String JSVal
  | .undef, _ => .error "TypeError"
  | .null, _ => .error "TypeError"
  | .func ps, k => .ok (lookupD ps k)
  | .obj ps, k => .ok (lookupD ps k)
  | .arr l, k => .ok (if k = "length" then .num l.length else .undef)
  | .str s, k => .ok (if k = "length" then .num s.length else .undef)
  | .bool _, _ => .ok .undef
  | .num _, _ => .ok (.undef)

/-- Outcome tag of one recorded invocation (`'return'` / `'throw'`). -/
inductive ResultKind where
  | ret
  | thr

/-- One entry of `mock.results`: `{ type: 'return' | 'throw', value }`. -/
structure ResultEntry where
  type : ResultKind
  value : JSVal

/-- The entry the recorder pushes for a behavior outcome: `.ok r` pushes
`{ type: 'return', value: r }`, a thrown `e` pushes
`{ type: 'throw', value: e }`. -/
def entryOf : Except JSVal JSVal → ResultEntry
  | .ok r => ⟨.ret, r⟩
  | .error e => ⟨.thr, e⟩

/-- The mutable closure state of one `createBaseMock` recorder, parametric
in the representation `B` of stored behaviors: `mock.calls`,
`mock.results`, the persistent `impl`, the `onceQueue`, and the
construction-time `defaultImpl` (used by `mockReset`). -/
structure MockStateG (B : Type) where
  calls : List (List JSVal)
  results : List ResultEntry
  impl : Option B
  onceQueue : List B
  defaultImpl : Option B

/-- One invocation of the recorder function `fn` (src/index.ts:33-46),
parametric in how a stored behavior is applied (`app`), so that a behavior
may itself read or mutate the recorder state (reentrancy).  Faithful to
the source order: `calls.push(args)` first, then `onceQueue.shift()`, then
the chosen behavior runs, then the outcome entry is pushed and the outcome
is delivered to the caller; with no behavior configured the result is
`undefined` recorded as a normal return. -/
def invokeG {B : Type}
    (app : B → MockStateG B → List JSVal → MockStateG B × Except JSVal JSVal)
    (s : MockStateG B) (args : List JSVal) :
    MockStateG B × Except JSVal JSVal :=
  match s.onceQueue with
  | next :: rest =>
      match app next { s with calls := s.calls ++ [args], onceQueue := rest } args with
      | (s3, .ok r) =>
          ({ s3 with results := s3.results ++ [⟨.ret, r⟩] }, .ok r)
      | (s3, .error e) =>
          ({ s3 with results := s3.results ++ [⟨.thr, e⟩] }, .error e)
  | [] =>
      match s.impl with
      | some f =>
          match app f { s with calls := s.calls ++ [args] } args with
          | (s3, .ok r) =>
              ({ s3 with results := s3.results ++ [⟨.ret, r⟩] }, .ok r)
          | (s3, .error e) =>
              ({ s3 with results := s3.results ++ [⟨.thr, e⟩] }, .error e)
      | none =>
          ({ s with calls := s.calls ++ [args],
                    results := s.results ++ [⟨.ret, .undef⟩] }, .ok .undef)

/-- A non-reentrant configured behavior: a closure receiving the live
`mock.calls` and `mock.results` (as visible when it runs) and the argument
tuple, returning a value (`.ok`) or throwing (`.error`). -/
abbrev Beh : Type :=
  List (List JSVal) → List ResultEntry → List JSVal → Except JSVal JSVal

/-- Recorder state with non-reentrant behaviors. -/
abbrev MockState : Type := MockStateG Beh

/-- Application of a non-reentrant behavior: it observes the state at the
moment it runs and does not mutate it. -/
def pureApp (b : Beh) (s : MockStateG Beh) (args : List JSVal) :
    MockStateG Beh × Except JSVal JSVal :=
  (s, b s.calls s.results args)

/-- Invocation of a recorder with non-reentrant behaviors. -/
def invoke : MockState → List JSVal → MockState × Except JSVal JSVal :=
  invokeG pureApp

/-- `createBaseMock(defaultImpl?)` (src/index.ts:29-31,48): empty logs,
persistent behavior initialised to the optional default, empty once-queue. -/
def createBaseMock (d : Option Beh) : MockState :=
  ⟨[], [], d, [], d⟩

/-- `fn.mockImplementation(f)` (src/index.ts:50-53). -/
def mockImplementation (s : MockState) (f : Beh) : MockState :=
  { s with impl := some f }

/-- `fn.mockImplementationOnce(f)` (src/index.ts:55-58): appends to the
end of the once-queue. -/
def mockImplementationOnce (s : MockState) (f : Beh) : MockState :=
  { s with onceQueue := s.onceQueue ++ [f] }

/-- `fn.mockReturnValue(v)` (src/index.ts:60). -/
def mockReturnValue (s : MockState) (v : JSVal) : MockState :=
  mockImplementation s (fun _ _ _ => .ok v)

/-- `fn.mockReturnValueOnce(v)` (src/index.ts:61). -/
def mockReturnValueOnce (s : MockState) (v : JSVal) : MockState :=
  mockImplementationOnce s (fun _ _ _ => .ok v)

/-- `fn.mockClear()` (src/index.ts:67-71): empties both logs only. -/
def mockClear (s : MockState) : MockState :=
  { s with calls := [], results := [] }

/-- `fn.mockReset()` (src/index.ts:73-78): clear, restore the
construction-time default implementation, empty the once-queue. -/
def mockReset (s : MockState) : MockState :=
  { mockClear s with impl := s.defaultImpl, onceQueue := [] }

/-- A sequence of invocations, threading the recorder state. -/
def invokeSeq (s : MockState) (argss : List (List JSVal)) : MockState :=
  argss.foldl (fun s a => (invoke s a).1) s

/-- JSVal view of one `mock.results` entry. -/
def resultToJS (e : ResultEntry) : JSVal :=
  .obj [("type", .str (match e.type with | .ret => "return" | .thr => "throw")),
        ("value", e.value)]

/-- JSVal view of a recorder: a function value carrying the `mock`
bookkeeping object with its `calls` and `results` arrays, exactly the
shape `isMock` and `getCallInfo` inspect. -/
def mockToJS (s : MockState) : JSVal :=
  .func [("mock", .obj [("calls", .arr (s.calls.map JSVal.arr)),
                        ("results", .arr (s.results.map resultToJS))])]

/-- `isMock(value)` (src/index.ts:215-217), translated operator by
operator with JS short-circuit order:
`typeof value === 'function' && 'mock' in value &&
typeof value.mock === 'object' && Array.isArray(value.mock.calls) &&
Array.isArray(value.mock.results)`.  Property access on a `null` `mock`
throws, which the `Except` propagates. -/
def isMock (value : JSVal) : Except String Bool :=
  if typeofStr value = "function" then
    if hasProp value "mock" then
      match getProp value "mock" with
      | .error e => .error e
      | .ok m =>
          if typeofStr m = "object" then
            match getProp m "calls" with
            | .error e => .error e
            | .ok c =>
                if isArr c then
                  match getProp m "results" with
                  | .error e => .error e
                  | .ok r => .ok (isArr r)
                else .ok false
          else .ok false
    else .ok false
  else .ok false

/-- Does `value` match the one shape on which the source `isMock` throws:
a function whose `mock` property is present and `null` (then
`value.mock.calls` is a property read on `null`)? -/
def mockPropIsNull : JSVal → Bool
  | .func ps =>
      match lookupProp ps "mock" with
      | some .null => true
      | _ => false
  | _ => false

/-- Total own-property read (only meaningful for non-null ingredients; the
spec-side predicate below only applies it to object-typed values). -/
def propValue : JSVal → String → JSVal
  | .func ps, k => lookupD ps k
  | .obj ps, k => lookupD ps k
  | .arr l, k => if k = "length" then .num l.length else .undef
  | .str s, k => if k = "length" then .num s.length else .undef
  | _, _ => (.undef)

/-- Modelled from the spec's words (section 4.3), for comparison with the
source `isMock`: the value is invocable and carries a (non-null,
object-typed) recorder-shaped bookkeeping member whose call-log and
outcome-log are both present and array-valued. -/
def isRecorderShaped : JSVal → Bool
  | .func ps =>
      match lookupProp ps "mock" with
      | some m =>
          typeofStr m = "object" && !(m matches .null)
            && isArr (propValue m "calls") && isArr (propValue m "results")
      | none => false
  | _ => false

/-- The `|| {...}` fallback of `getCallInfo.lastResult`:
`{ type: 'return', value: undefined }`. -/
def sentinelResult : JSVal :=
  .obj [("type", .str "return"), ("value", .undef)]

/-- JavaScript `a || b`. -/
def jsOr (a b : JSVal) : JSVal :=
  if truthy a then a else b

/-- `l[l.length - 1]` on a JS array: the last element, or `undefined` when
the array is empty. -/
def lastOr (l : List JSVal) : JSVal :=
  (l.getLast?).getD (.undef)

/-- `getCallInfo(mockFn)` (src/index.ts:274-288).  Throws
`'Argument must be a mock function'` when `isMock` is `false` (and
propagates the `TypeError` when `isMock` itself throws); otherwise builds
the snapshot object in source field order.  The final wildcard branch is
unreachable: `isMock = ok true` forces `mock.calls` and `mock.results` to
be arrays (`isMock_true_shape` below). -/
def getCallInfo (v : JSVal) : Except String JSVal :=
  match isMock v with
  | .error e => .error e
  | .ok false => .error "Argument must be a mock function"
  | .ok true =>
      match getProp v "mock" with
      | .error e => .error e
      | .ok m =>
          match getProp m "calls", getProp m "results" with
          | .ok (.arr calls), .ok (.arr results) =>
              .ok (.obj
                [("callCount", .num calls.length),
                 ("calls", .arr calls),
                 ("results", .arr results),
                 ("lastCall", jsOr (lastOr calls) (.arr [])),
                 ("lastResult", jsOr (lastOr results) sentinelResult)])
          | _, _ => .error "TypeError"

/-- Is an `Except` a success? -/
def exOk : Except String JSVal → Bool
  | .ok _ => true
  | .error _ => false

/-- The member names `handler.get` passes through verbatim to the target
(src/index.ts:130-145), in source order.  Note `mockRestore` is passed
through although the base mock never defines it. -/
def passthroughNames : List String :=
  ["mock", "mockImplementation", "mockImplementationOnce",
   "mockResolvedValue", "mockResolvedValueOnce",
   "mockRejectedValue", "mockRejectedValueOnce",
   "mockReturnValue", "mockReturnValueOnce",
   "mockClear", "mockReset", "mockRestore"]

/-- The own enumerable properties a fresh base mock function carries, in
creation order (src/index.ts:48-78): the `mock` bookkeeping object then
the ten configuration methods.  (`name`/`length` are own but
non-enumerable, hence absent from `Object.keys`.) -/
def baseFnProps : List (String × JSVal) :=
  [("mock", .obj [("calls", .arr []), ("results", .arr [])]),
   ("mockImplementation", .func []),
   ("mockImplementationOnce", .func []),
   ("mockReturnValue", .func []),
   ("mockReturnValueOnce", .func []),
   ("mockResolvedValue", .func []),
   ("mockResolvedValueOnce", .func []),
   ("mockRejectedValue", .func []),
   ("mockRejectedValueOnce", .func []),
   ("mockClear", .func []),
   ("mockReset", .func [])]

/-- One recursive stand-in node: the proxied base mock function.  Its
property table (starting as `baseFnProps`) doubles as the child cache —
the source stores generated children directly on the target with
`target[prop] = nestedMock`. -/
structure Node where
  props : List (String × JSVal)
  depth : Nat

/-- A freshly created stand-in node at a given depth. -/
def freshNode (d : Nat) : Node :=
  ⟨baseFnProps, d⟩

/-- The fixed recursion bound of `createMock` (src/index.ts:121). -/
def MAX_DEPTH : Nat := 10

/-- `createMock(depth)` (src/index.ts:119-197): `none` models the
`undefined` placeholder returned when `depth > MAX_DEPTH`, otherwise a
fresh proxied node.  The definition is a total Lean function: generation
never throws and never diverges. -/
def createMock (depth : Nat) : Option Node :=
  if depth > MAX_DEPTH then none else some (freshNode depth)

/-- The JSVal a parent stores for a generated child
(`createMock(depth + 1)`): `undefined` past the bound, else the child's
function-typed proxy. -/
def genChild (depth : Nat) : JSVal :=
  match createMock depth with
  | none => .undef
  | some n => .func n.props

/-- `handler.get` (src/index.ts:128-161) for a string property: recognised
recorder-surface names are read from the target verbatim; otherwise a
cached value that is not `undefined` (`target[prop] !== undefined`) is
returned unchanged; otherwise the supplied freshly generated child is
stored on the target and returned. -/
def handlerGet (n : Node) (prop : String) (fresh : JSVal) : Node × JSVal :=
  if prop ∈ passthroughNames then
    (n, lookupD n.props prop)
  else if isUndef (lookupD n.props prop) then
    ({ n with props := setProp n.props prop fresh }, fresh)
  else
    (n, lookupD n.props prop)

/-- `handler.set` (src/index.ts:164-167): unconditionally stores the
assigned value on the target. -/
def handlerSet (n : Node) (prop : String) (v : JSVal) : Node :=
  { n with props := setProp n.props prop v }

/-- `handler.ownKeys` (src/index.ts:170-172): `Object.keys(target)`, the
own enumerable string keys in insertion order. -/
def ownKeysModel (n : Node) : List String :=
  n.props.map Prod.fst

/-- A member interaction on a stand-in node: a read (carrying the child
value `createMock(depth + 1)` would produce for it) or a write. -/
inductive MemberOp where
  | read (name : String) (fresh : JSVal)
  | write (name : String) (v : JSVal)

/-- Apply one member interaction through the proxy handler. -/
def applyOp (n : Node) : MemberOp → Node
  | .read name fresh => (handlerGet n name fresh).1
  | .write name v => handlerSet n name v

/-- Apply a sequence of member interactions. -/
def applyOps (n : Node) (ops : List MemberOp) : Node :=
  ops.foldl applyOp n

/-- Key evolution of a node's property table under member interactions: a
read of a passed-through or already-present name adds nothing; any other
read caches a child under a new key; a write adds the key when absent. -/
def keysAfter (ks : List String) : List MemberOp → List String
  | [] => ks
  | .read name _ :: rest =>
      if name ∈ passthroughNames ∨ name ∈ ks then keysAfter ks rest
      else keysAfter (ks ++ [name]) rest
  | .write name _ :: rest =>
      if name ∈ ks then keysAfter ks rest
      else keysAfter (ks ++ [name]) rest

/-- What `createMockWithDefaults` did with one defaults entry. -/
inductive DEffect where
  | installed (k : String)
  | skipped (k : String)
  | pinned (k : String)

/-- One iteration of the `Object.entries(defaults).forEach` body
(src/index.ts:249-258): a function-typed value reads the child through the
proxy and installs itself as persistent behavior only when `isMock`
accepts the child — with no else branch, a non-mock child is silently
skipped; a non-function value is written through the proxy (pinned). -/
def applyDefault (acc : Except String (Node × List DEffect))
    (kv : String × JSVal) : Except String (Node × List DEffect) :=
  match acc with
  | .error e => .error e
  | .ok (n, effs) =>
      if typeofStr kv.2 = "function" then
        match isMock (handlerGet n kv.1 (genChild (n.depth + 1))).2 with
        | .error e => .error e
        | .ok true =>
            .ok ((handlerGet n kv.1 (genChild (n.depth + 1))).1,
                 effs ++ [.installed kv.1])
        | .ok false =>
            .ok ((handlerGet n kv.1 (genChild (n.depth + 1))).1,
                 effs ++ [.skipped kv.1])
      else
        .ok (handlerSet n kv.1 kv.2, effs ++ [.pinned kv.1])

/-- `createMockWithDefaults(defaults)` (src/index.ts:243-262): build a
fresh root stand-in and process the defaults entries in order.  The
effect list records, per entry, whether a persistent behavior was
installed on a recorder child, the entry was silently skipped, or a plain
value was pinned. -/
def createMockWithDefaults (ds : List (String × JSVal)) :
    Except String (Node × List DEffect) :=
  ds.foldl applyDefault (.ok (freshNode 0, []))

/-- A tiny reentrant behavior language: `const v` returns `v`;
`reinvokeOnce` invokes the recorder it is installed on once more (with no
arguments) and then returns the length the live `mock.calls` array has at
that moment. -/
inductive ReB where
  | const (v : JSVal)
  | reinvokeOnce

/-- Behavior application for the inner (non-reentrant) level. -/
def reAppBase : ReB → MockStateG ReB → List JSVal → MockStateG ReB × Except JSVal JSVal
  | .const v, s, _ => (s, .ok v)
  | .reinvokeOnce, s, _ => (s, .error .undef)

/-- Behavior application for the outer level: `reinvokeOnce` performs a
genuine reentrant invocation, mutating the recorder state, then reports
the observed `mock.calls.length`. -/
def reApp : ReB → MockStateG ReB → List JSVal → MockStateG ReB × Except JSVal JSVal
  | .const v, s, _ => (s, .ok v)
  | .reinvokeOnce, s, _ =>
      ((invokeG reAppBase s []).1,
       .ok (.num (invokeG reAppBase s []).1.calls.length))

/-- The recorder state of the C1 FIFO scenario: persistent behavior `p`,
then `mockImplementationOnce f1` and `mockImplementationOnce f2`. -/
def c1State (p f1 f2 : Beh) : MockState :=
  mockImplementationOnce (mockImplementationOnce
    (mockImplementation (createBaseMock none) p) f1) f2

/-- A behavior that always throws the string `"boom"`. -/
def throwB : Beh :=
  fun _ _ _ => .error (.str "boom")

/-! ### Recorder invocation lemmas -/

/-- Invocation with a non-empty once-queue runs the front one-shot
behavior on the state whose call log already holds the new entry, removes
it from the queue, and appends the matching outcome entry. -/
theorem invoke_cons (cs : List (List JSVal)) (rs : List ResultEntry)
    (impl : Option Beh) (b : Beh) (q : List Beh) (d : Option Beh)
    (args : List JSVal) :
    invoke ⟨cs, rs, impl, b :: q, d⟩ args =
      (⟨cs ++ [args], rs ++ [entryOf (b (cs ++ [args]) rs args)], impl, q, d⟩,
       b (cs ++ [args]) rs args) := by
  unfold invoke invokeG pureApp
  cases h : b (cs ++ [args]) rs args <;> simp [entryOf, h]

/-- Invocation with an empty once-queue and a persistent behavior runs
that behavior and leaves it installed. -/
theorem invoke_impl (cs : List (List JSVal)) (rs : List ResultEntry)
    (f : Beh) (d : Option Beh) (args : List JSVal) :
    invoke ⟨cs, rs, some f, [], d⟩ args =
      (⟨cs ++ [args], rs ++ [entryOf (f (cs ++ [args]) rs args)], some f, [], d⟩,
       f (cs ++ [args]) rs args) := by
  unfold invoke invokeG pureApp
  cases h : f (cs ++ [args]) rs args <;> simp [entryOf, h]

/-- Invocation with no behavior configured yields `undefined`, recorded as
a normal return. -/
theorem invoke_none (cs : List (List JSVal)) (rs : List ResultEntry)
    (d : Option Beh) (args : List JSVal) :
    invoke ⟨cs, rs, none, [], d⟩ args =
      (⟨cs ++ [args], rs ++ [⟨.ret, .undef⟩], none, [], d⟩, .ok .undef) := by
  unfold invoke invokeG
  simp

/-- Every invocation appends exactly the new argument tuple to the call
log and exactly the entry of the delivered outcome to the outcome log. -/
theorem invoke_state (s : MockState) (args : List JSVal) :
    (invoke s args).1.calls = s.calls ++ [args]
    ∧ (invoke s args).1.results = s.results ++ [entryOf (invoke s args).2] := by
  obtain ⟨cs, rs, impl, q, d⟩ := s
  cases q with
  | cons b q => simp [invoke_cons]
  | nil =>
      cases impl with
      | some f => simp [invoke_impl]
      | none => simp [invoke_none, entryOf]

/-- Lengths of both logs after a sequence of invocations. -/
theorem invokeSeq_lengths (argss : List (List JSVal)) (s : MockState) :
    (invokeSeq s argss).calls.length = s.calls.length + argss.length
    ∧ (invokeSeq s argss).results.length = s.results.length + argss.length := by
  induction argss generalizing s with
  | nil => simp [invokeSeq]
  | cons a t ih =>
      have hstep := invoke_state s a
      have ht := ih (invoke s a).1
      have h1 : invokeSeq s (a :: t) = invokeSeq (invoke s a).1 t := by
        simp [invokeSeq]
      have hc : (invoke s a).1.calls.length = s.calls.length + 1 := by
        rw [hstep.1]; simp
      have hr : (invoke s a).1.results.length = s.results.length + 1 := by
        rw [hstep.2]; simp
      constructor
      · rw [h1, ht.1, hc]; simp; omega
      · rw [h1, ht.2, hr]; simp; omega

/-! ### Claims C1 and C2 -/

/-- C1: every invocation executes (and removes) the front one-shot
behavior when the once-queue is non-empty, else the persistent behavior
when present, else yields `undefined`; and the [f1, f2] once-queue
scenario runs f1, then f2, then the persistent behavior, in FIFO order,
each one-shot exactly once, recording the three outcomes in order. -/
theorem claim_C1 :
    (∀ (cs : List (List JSVal)) (rs : List ResultEntry) (impl : Option Beh)
        (b : Beh) (q : List Beh) (d : Option Beh) (args : List JSVal),
        (invoke ⟨cs, rs, impl, b :: q, d⟩ args).1.onceQueue = q
        ∧ (invoke ⟨cs, rs, impl, b :: q, d⟩ args).2 = b (cs ++ [args]) rs args)
    ∧ (∀ (cs : List (List JSVal)) (rs : List ResultEntry) (f : Beh)
        (d : Option Beh) (args : List JSVal),
        (invoke ⟨cs, rs, some f, [], d⟩ args).1.onceQueue = []
        ∧ (invoke ⟨cs, rs, some f, [], d⟩ args).2 = f (cs ++ [args]) rs args)
    ∧ (∀ (cs : List (List JSVal)) (rs : List ResultEntry) (d : Option Beh)
        (args : List JSVal),
        invoke ⟨cs, rs, none, [], d⟩ args
          = (⟨cs ++ [args], rs ++ [⟨.ret, .undef⟩], none, [], d⟩, .ok .undef))
    ∧ (∀ (f1 f2 p : Beh) (a1 a2 a3 : List JSVal),
        (invoke (c1State p f1 f2) a1).2 = f1 [a1] [] a1
        ∧ (invoke (invoke (c1State p f1 f2) a1).1 a2).2
            = f2 [a1, a2] [entryOf (f1 [a1] [] a1)] a2
        ∧ (invoke (invoke (invoke (c1State p f1 f2) a1).1 a2).1 a3).2
            = p [a1, a2, a3]
                [entryOf (f1 [a1] [] a1),
                 entryOf (f2 [a1, a2] [entryOf (f1 [a1] [] a1)] a2)] a3
        ∧ (invoke (invoke (invoke (c1State p f1 f2) a1).1 a2).1 a3).1.results
            = [entryOf (f1 [a1] [] a1),
               entryOf (f2 [a1, a2] [entryOf (f1 [a1] [] a1)] a2),
               entryOf (p [a1, a2, a3]
                 [entryOf (f1 [a1] [] a1),
                  entryOf (f2 [a1, a2] [entryOf (f1 [a1] [] a1)] a2)] a3)]
        ∧ (invoke (invoke (invoke (c1State p f1 f2) a1).1 a2).1 a3).1.onceQueue
            = []) := by
  refine ⟨?_, ?_, ?_, ?_⟩
  · intro cs rs impl b q d args
    simp [invoke_cons]
  · intro cs rs f d args
    simp [invoke_impl]
  · intro cs rs d args
    exact invoke_none cs rs d args
  · intro f1 f2 p a1 a2 a3
    have h0 : c1State p f1 f2 = ⟨[], [], some p, [f1, f2], none⟩ := rfl
    rw [h0]
    simp [invoke_cons, invoke_impl]

/-- `isMock` accepts the JSVal view of every recorder state. -/
theorem isMock_mockToJS (s : MockState) : isMock (mockToJS s) = .ok true := by
  simp [isMock, mockToJS, typeofStr, hasProp, lookupProp, getProp, lookupD, isArr]

/-- Mapping commutes with taking the last element. -/
theorem getLast?_map {α β : Type} (f : α → β) (l : List α) :
    (l.map f).getLast? = (l.getLast?).map f := by
  induction l with
  | nil => rfl
  | cons a t ih =>
      cases t with
      | nil => rfl
      | cons b t2 => simpa [List.getLast?_cons_cons] using ih

/-- Evaluation of `getCallInfo` on the JSVal view of a recorder state: the
snapshot holds the invocation count, both full logs, the most recent call
(or an empty tuple), and the most recent outcome (or the returned-undefined
sentinel). -/
theorem getCallInfo_mockToJS (s : MockState) :
    getCallInfo (mockToJS s) = .ok (.obj
      [("callCount", .num s.calls.length),
       ("calls", .arr (s.calls.map JSVal.arr)),
       ("results", .arr (s.results.map resultToJS)),
       ("lastCall", match s.calls.getLast? with
         | some c => .arr c
         | none => .arr []),
       ("lastResult", match s.results.getLast? with
         | some e => resultToJS e
         | none => sentinelResult)]) := by
  cases hc : s.calls.getLast? <;> cases hr : s.results.getLast? <;>
    simp [getCallInfo, isMock, mockToJS, typeofStr, hasProp, lookupProp,
      getProp, lookupD, isArr, jsOr, lastOr, truthy, sentinelResult,
      resultToJS, getLast?_map, hc, hr]

/-- C2: after every invocation the call log and the outcome log each grow
by exactly one entry, so after any sequence of N invocations of a fresh
recorder both logs have length N (after each intermediate invocation as
well, since the sequence is arbitrary), and the reported `callCount` of
the call-info snapshot equals N. -/
theorem claim_C2 :
    (∀ (s : MockState) (args : List JSVal),
        (invoke s args).1.calls.length = s.calls.length + 1
        ∧ (invoke s args).1.results.length = s.results.length + 1)
    ∧ (∀ (d : Option Beh) (argss : List (List JSVal)),
        (invokeSeq (createBaseMock d) argss).calls.length = argss.length
        ∧ (invokeSeq (createBaseMock d) argss).results.length = argss.length)
    ∧ (∀ (d : Option Beh) (argss : List (List JSVal)), ∃ rest,
        getCallInfo (mockToJS (invokeSeq (createBaseMock d) argss))
          = .ok (.obj (("callCount", .num argss.length) :: rest))) := by
  refine ⟨?_, ?_, ?_⟩
  · intro s args
    have h := invoke_state s args
    constructor
    · rw [h.1]; simp
    · rw [h.2]; simp
  · intro d argss
    have h := invokeSeq_lengths argss (createBaseMock d)
    simpa [createBaseMock] using h
  · intro d argss
    have hl := (invokeSeq_lengths argss (createBaseMock d)).1
    have hN : (invokeSeq (createBaseMock d) argss).calls.length = argss.length := by
      rw [hl]; simp [createBaseMock]
    refine ⟨[("calls", .arr ((invokeSeq (createBaseMock d) argss).calls.map JSVal.arr)),
            ("results", .arr ((invokeSeq (createBaseMock d) argss).results.map resultToJS)),
            ("lastCall", match (invokeSeq (createBaseMock d) argss).calls.getLast? with
              | some c => .arr c
              | none => .arr []),
            ("lastResult", match (invokeSeq (createBaseMock d) argss).results.getLast? with
              | some e => resultToJS e
              | none => sentinelResult)], ?_⟩
    rw [getCallInfo_mockToJS, hN]

/-! ### Claims C3 and C4 -/

/-- C3: each invocation appends to each log exactly once, success or
failure, and both entries are already recorded in the state delivered to
the caller together with the outcome; a behavior runs on the state whose
call log already holds the committed entry of the invocation that ran it
and whose outcome log does not yet hold that invocation's pending outcome
entry (the queue already shifted), with exactly one outcome entry
appended after the behavior finishes — this holds for arbitrary, possibly
reentrant, behavior application, and the concrete reentrant run shows two
invocations (one of them nested inside the other's behavior) produce
exactly two call entries and two outcome entries, with the reentrant
behavior observing its own invocation's committed call entry. -/
theorem claim_C3 :
    (∀ (s : MockState) (args : List JSVal),
        (invoke s args).1.calls = s.calls ++ [args]
        ∧ (invoke s args).1.results
            = s.results ++ [entryOf (invoke s args).2])
    ∧ (∀ (B : Type)
        (app : B → MockStateG B → List JSVal → MockStateG B × Except JSVal JSVal)
        (cs : List (List JSVal)) (rs : List ResultEntry) (impl : Option B)
        (b : B) (q : List B) (d : Option B) (args : List JSVal),
        invokeG app ⟨cs, rs, impl, b :: q, d⟩ args
          = ({ (app b ⟨cs ++ [args], rs, impl, q, d⟩ args).1 with
                results := (app b ⟨cs ++ [args], rs, impl, q, d⟩ args).1.results
                  ++ [entryOf (app b ⟨cs ++ [args], rs, impl, q, d⟩ args).2] },
             (app b ⟨cs ++ [args], rs, impl, q, d⟩ args).2))
    ∧ (∀ (B : Type)
        (app : B → MockStateG B → List JSVal → MockStateG B × Except JSVal JSVal)
        (cs : List (List JSVal)) (rs : List ResultEntry) (f : B)
        (d : Option B) (args : List JSVal),
        invokeG app ⟨cs, rs, some f, [], d⟩ args
          = ({ (app f ⟨cs ++ [args], rs, some f, [], d⟩ args).1 with
                results := (app f ⟨cs ++ [args], rs, some f, [], d⟩ args).1.results
                  ++ [entryOf (app f ⟨cs ++ [args], rs, some f, [], d⟩ args).2] },
             (app f ⟨cs ++ [args], rs, some f, [], d⟩ args).2))
    ∧ invokeG reApp
        ⟨[], [], none, [ReB.reinvokeOnce, ReB.const (JSVal.str "v")], none⟩
        [JSVal.str "a"]
        = (⟨[[JSVal.str "a"], []],
            [⟨ResultKind.ret, JSVal.str "v"⟩, ⟨ResultKind.ret, JSVal.num 2⟩],
            none, [], none⟩,
           .ok (JSVal.num 2)) := by
  refine ⟨?_, ?_, ?_, ?_⟩
  · exact invoke_state
  · intro B app cs rs impl b q d args
    unfold invokeG
    cases h : app b ⟨cs ++ [args], rs, impl, q, d⟩ args with
    | mk s3 o => cases o <;> simp [entryOf, h]
  · intro B app cs rs f d args
    unfold invokeG
    cases h : app f ⟨cs ++ [args], rs, some f, [], d⟩ args with
    | mk s3 o => cases o <;> simp [entryOf, h]
  · rfl

/-- C4: when the chosen behavior (the front one-shot, or the persistent
behavior) raises `e`, the invocation appends `{throw, e}` to the outcome
log and delivers exactly that same `e` to the caller; when it returns
`r`, the invocation appends `{return, r}` and returns `r`. -/
theorem claim_C4
    (cs : List (List JSVal)) (rs : List ResultEntry) (impl : Option Beh)
    (b : Beh) (q : List Beh) (d : Option Beh) (args : List JSVal) :
    (∀ e, b (cs ++ [args]) rs args = .error e →
        invoke ⟨cs, rs, impl, b :: q, d⟩ args
          = (⟨cs ++ [args], rs ++ [⟨.thr, e⟩], impl, q, d⟩, .error e))
    ∧ (∀ r, b (cs ++ [args]) rs args = .ok r →
        invoke ⟨cs, rs, impl, b :: q, d⟩ args
          = (⟨cs ++ [args], rs ++ [⟨.ret, r⟩], impl, q, d⟩, .ok r))
    ∧ (∀ e, b (cs ++ [args]) rs args = .error e →
        invoke ⟨cs, rs, some b, [], d⟩ args
          = (⟨cs ++ [args], rs ++ [⟨.thr, e⟩], some b, [], d⟩, .error e))
    ∧ (∀ r, b (cs ++ [args]) rs args = .ok r →
        invoke ⟨cs, rs, some b, [], d⟩ args
          = (⟨cs ++ [args], rs ++ [⟨.ret, r⟩], some b, [], d⟩, .ok r)) := by
  refine ⟨?_, ?_, ?_, ?_⟩ <;> intro x h
  · rw [invoke_cons, h]; rfl
  · rw [invoke_cons, h]; rfl
  · rw [invoke_impl, h]; rfl
  · rw [invoke_impl, h]; rfl

/-- Witness for C4 at a concrete throwing behavior and a concrete
returning behavior: the thrown string `"boom"` is recorded as a throw
entry and re-raised unchanged, and a returned value is recorded as a
return entry and returned. -/
theorem claim_C4_witness :
    invoke ⟨[], [], none, [throwB], none⟩ []
      = (⟨[[]], [⟨.thr, .str "boom"⟩], none, [], none⟩, .error (.str "boom"))
    ∧ invoke ⟨[], [], some (fun _ _ _ => .ok (.num 7)), [], none⟩ []
      = (⟨[[]], [⟨.ret, .num 7⟩], some (fun _ _ _ => .ok (.num 7)), [], none⟩,
         .ok (.num 7)) :=
  ⟨(claim_C4 [] [] none throwB [] none []).1 (.str "boom") rfl,
   (claim_C4 [] [] none (fun _ _ _ => .ok (.num 7)) [] none []).2.2.2 (.num 7) rfl⟩

/-! ### Claim C7 -/

/-- Counterexample to C7: `isMock` is not total.  On a function whose
`mock` property is `null`, `typeof value.mock === 'object'` passes
(JavaScript's `typeof null === 'object'`) and the subsequent
`Array.isArray(value.mock.calls)` reads a property of `null`, raising a
`TypeError` — the claim says `IsStandInRecorder` always returns a boolean
without raising. -/
theorem claim_C7_cex :
    isMock (.func [("mock", .null)]) = .error "TypeError" := rfl

/-- Folding the source's short-circuit conjunction back into `&&`. -/
theorem exceptOk_if_and (a b : Bool) :
    (if a = true then (Except.ok b : Except String Bool) else .ok false)
      = .ok (a && b) := by
  cases a <;> simp

/-- Full characterisation of `isMock`: it throws exactly on a function
with a `null` `mock` member and otherwise decides the spec's
recorder-shape predicate. -/
theorem isMock_eq (v : JSVal) :
    isMock v = if mockPropIsNull v then .error "TypeError"
               else .ok (isRecorderShaped v) := by
  cases v with
  | func ps =>
      cases h : lookupProp ps "mock" with
      | none =>
          simp [isMock, typeofStr, hasProp, h, mockPropIsNull, isRecorderShaped]
      | some m =>
          cases m <;>
            simp [isMock, typeofStr, hasProp, getProp, lookupD, h, isArr,
              mockPropIsNull, isRecorderShaped, propValue, exceptOk_if_and]
  | undef => rfl
  | null => rfl
  | bool b => rfl
  | num n => rfl
  | str s => rfl
  | obj ps => rfl
  | arr l => rfl

/-- C7 as amended: `isMock` returns a boolean for every input except an
invocable whose `mock` member is present and `null`, where it raises a
`TypeError`; whenever it returns, it returns `true` iff the value is
invocable and carries a non-null object-typed bookkeeping member whose
call-log and outcome-log are both present and array-valued. -/
theorem claim_C7_amended (v : JSVal) :
    isMock v = if mockPropIsNull v then .error "TypeError"
               else .ok (isRecorderShaped v) :=
  isMock_eq v

/-! ### Claim C8 -/

/-- When `isMock` returns `true`, the value is a function whose `mock`
member is an object with array-valued `calls` and `results`. -/
theorem isMock_true_shape (v : JSVal) (h : isMock v = .ok true) :
    ∃ ps qs cs rs, v = .func ps ∧ lookupProp ps "mock" = some (.obj qs)
      ∧ lookupD qs "calls" = .arr cs ∧ lookupD qs "results" = .arr rs := by
  rw [isMock_eq] at h
  by_cases hn : mockPropIsNull v = true
  · simp [hn] at h
  · simp [hn] at h
    cases v with
    | func ps =>
        cases hm : lookupProp ps "mock" with
        | none => simp [isRecorderShaped, hm] at h
        | some m =>
            cases m with
            | obj qs =>
                simp [isRecorderShaped, hm, typeofStr, propValue] at h
                obtain ⟨h1, h2⟩ := h
                cases hc : lookupD qs "calls" <;> rw [hc] at h1 <;>
                  simp [isArr] at h1
                cases hr : lookupD qs "results" <;> rw [hr] at h2 <;>
                  simp [isArr] at h2
                exact ⟨ps, qs, _, _, rfl, hm, hc, hr⟩
            | undef => simp [isRecorderShaped, hm, typeofStr] at h
            | null => simp [mockPropIsNull, hm] at hn
            | bool b => simp [isRecorderShaped, hm, typeofStr] at h
            | num n => simp [isRecorderShaped, hm, typeofStr] at h
            | str s2 => simp [isRecorderShaped, hm, typeofStr] at h
            | func qs => simp [isRecorderShaped, hm, typeofStr] at h
            | arr l => simp [isRecorderShaped, hm, typeofStr, propValue, isArr] at h
    | undef => simp [isRecorderShaped] at h
    | null => simp [isRecorderShaped] at h
    | bool b => simp [isRecorderShaped] at h
    | num n => simp [isRecorderShaped] at h
    | str s => simp [isRecorderShaped] at h
    | obj ps => simp [isRecorderShaped] at h
    | arr l => simp [isRecorderShaped] at h

/-- C8: `getCallInfo` succeeds exactly on the values the membership
predicate accepts — it fails with a type-mismatch error iff the argument
does not satisfy `isMock` (including the inputs on which `isMock` itself
raises) — and on the JSVal view of any recorder state it returns the
snapshot with the invocation count, the full call log, the full outcome
log, the most recent call (or an empty tuple when no invocation
occurred), and the most recent outcome (or the returned-undefined
sentinel when no invocation occurred). -/
theorem claim_C8 :
    (∀ v : JSVal, exOk (getCallInfo v) = true ↔ isMock v = .ok true)
    ∧ (∀ s : MockState, getCallInfo (mockToJS s) = .ok (.obj
        [("callCount", .num s.calls.length),
         ("calls", .arr (s.calls.map JSVal.arr)),
         ("results", .arr (s.results.map resultToJS)),
         ("lastCall", match s.calls.getLast? with
           | some c => .arr c
           | none => .arr []),
         ("lastResult", match s.results.getLast? with
           | some e => resultToJS e
           | none => sentinelResult)])) := by
  constructor
  · intro v
    constructor
    · intro hok
      cases hm : isMock v with
      | error e => simp [getCallInfo, hm, exOk] at hok
      | ok b =>
          cases b with
          | false => simp [getCallInfo, hm, exOk] at hok
          | true => rfl
    · intro hm
      obtain ⟨ps, qs, cs, rs, hv, hmk, hc, hr⟩ := isMock_true_shape v hm
      subst hv
      simp [lookupD] at hc hr
      simp [getCallInfo, hm, getProp, lookupD, hmk, hc, hr, exOk]
  · exact getCallInfo_mockToJS

/-- Witness for C8 at a concrete recorder: a fresh recorder's JSVal view
satisfies the membership predicate, via the succeeding `getCallInfo`. -/
theorem claim_C8_witness :
    isMock (mockToJS (createBaseMock none)) = .ok true :=
  (claim_C8.1 (mockToJS (createBaseMock none))).mp rfl

/-! ### Property-table lemmas -/

/-- Reading back the key just written. -/
theorem lookupProp_setProp_self (ps : List (String × JSVal)) (k : String) (v : JSVal) :
    lookupProp (setProp ps k v) k = some v := by
  induction ps with
  | nil => simp [setProp, lookupProp]
  | cons p rest ih =>
      obtain ⟨k0, v0⟩ := p
      by_cases h : k0 = k
      · subst h; simp [setProp, lookupProp]
      · simp [setProp, lookupProp, h, ih]

/-- A key is absent exactly when lookup yields nothing. -/
theorem lookupProp_none_iff (ps : List (String × JSVal)) (k : String) :
    lookupProp ps k = none ↔ k ∉ ps.map Prod.fst := by
  induction ps with
  | nil => simp [lookupProp]
  | cons p rest ih =>
      obtain ⟨k0, v0⟩ := p
      by_cases h : k0 = k
      · subst h; simp [lookupProp]
      · have h2 : ¬(k = k0) := fun hh => h hh.symm
        simp [lookupProp, h, h2, ih]

/-- A write keeps the key list unchanged when the key exists and appends
the key otherwise. -/
theorem keys_setProp (ps : List (String × JSVal)) (k : String) (v : JSVal) :
    (setProp ps k v).map Prod.fst
      = if k ∈ ps.map Prod.fst then ps.map Prod.fst
        else ps.map Prod.fst ++ [k] := by
  induction ps with
  | nil => simp [setProp]
  | cons p rest ih =>
      obtain ⟨k0, v0⟩ := p
      by_cases h : k0 = k
      · subst h; simp [setProp]
      · have h2 : ¬(k = k0) := fun hh => h hh.symm
        by_cases h3 : k ∈ rest.map Prod.fst <;> simp [setProp, h, h2, h3, ih]

/-! ### Claims C5 and C6 -/

/-- Counterexample to C5: after writing `undefined` to a non-surface
member, a read does not return the written value — the cache check
`target[prop] !== undefined` fails, so the handler auto-generates a fresh
child and returns that instead of the written `undefined`. -/
theorem claim_C5_cex :
    (handlerGet (handlerSet (freshNode 0) "x" JSVal.undef) "x" (genChild 1)).2
        = genChild 1
    ∧ genChild 1 ≠ JSVal.undef := by
  constructor
  · rfl
  · simp [genChild, createMock, MAX_DEPTH, freshNode]

/-- C5 as amended: for a non-surface member, writing any value other than
`undefined` and then reading returns exactly the written value with no
auto-generation (the node is untouched by the read); writing `undefined`
makes the next read auto-generate afresh and return the generated child;
and two reads of the same member with no intervening write return the
identical cached value. -/
theorem claim_C5_amended (n : Node) (prop : String) (v fresh : JSVal)
    (hpass : prop ∉ passthroughNames) :
    (v ≠ .undef →
      (handlerGet (handlerSet n prop v) prop fresh).2 = v
      ∧ (handlerGet (handlerSet n prop v) prop fresh).1 = handlerSet n prop v)
    ∧ (handlerGet (handlerSet n prop .undef) prop fresh).2 = fresh
    ∧ (handlerGet (handlerGet n prop fresh).1 prop fresh).2
        = (handlerGet n prop fresh).2 := by
  refine ⟨?_, ?_, ?_⟩
  · intro hv
    have hu : isUndef v = false := by
      cases v with
      | undef => exact absurd rfl hv
      | null => rfl
      | bool b => rfl
      | num n => rfl
      | str s => rfl
      | func ps => rfl
      | obj ps => rfl
      | arr l => rfl
    have hl : lookupD (setProp n.props prop v) prop = v := by
      simp [lookupD, lookupProp_setProp_self]
    constructor <;> simp [handlerGet, handlerSet, hpass, hl, hu]
  · have hl : lookupD (setProp n.props prop .undef) prop = .undef := by
      simp [lookupD, lookupProp_setProp_self]
    simp [handlerGet, handlerSet, hpass, hl, isUndef]
  · by_cases hu : isUndef (lookupD n.props prop) = true
    · have hl : lookupD (setProp n.props prop fresh) prop = fresh := by
        simp [lookupD, lookupProp_setProp_self]
      by_cases hf : isUndef fresh = true
      · simp [handlerGet, hpass, hu, hl, hf]
      · simp [handlerGet, hpass, hu, hl, hf]
    · simp [handlerGet, hpass, hu]

/-- Witness for C5 (amended): writing the string `"pinned"` to member
`"x"` of a fresh root and reading it back yields exactly that string. -/
theorem claim_C5_witness :
    (handlerGet (handlerSet (freshNode 0) "x" (.str "pinned")) "x" (genChild 1)).2
      = .str "pinned" :=
  ((claim_C5_amended (freshNode 0) "x" (.str "pinned") (genChild 1)
      (by decide)).1 (by simp)).1

/-- C6: generation yields the undefined placeholder exactly for depths
strictly greater than the fixed maximum 10 — below or at the bound it
yields a fresh node (never a placeholder), and the child value a parent
stores is the inert `undefined` exactly past the bound.  `createMock` and
`genChild` are total Lean functions, so generation never throws and never
diverges at any depth. -/
theorem claim_C6 (d : Nat) :
    (createMock d = none ↔ MAX_DEPTH < d)
    ∧ (genChild d = JSVal.undef ↔ MAX_DEPTH < d) := by
  by_cases h : MAX_DEPTH < d
  · simp [createMock, genChild, h]
  · simp [createMock, genChild, h, freshNode]

/-- Witness for C6 at depth 11: generation short-circuits to the
undefined placeholder just past the bound. -/
theorem claim_C6_witness :
    createMock 11 = none ∧ genChild 11 = JSVal.undef :=
  ⟨(claim_C6 11).1.mpr (by decide), (claim_C6 11).2.mpr (by decide)⟩

/-! ### Claim C10 -/

/-- Key evolution of a node's property table under one member
interaction. -/
theorem keys_applyOp (n : Node) (op : MemberOp) :
    ownKeysModel (applyOp n op)
      = match op with
        | .read name _ =>
            if name ∈ passthroughNames ∨ name ∈ ownKeysModel n then
              ownKeysModel n
            else ownKeysModel n ++ [name]
        | .write name _ =>
            if name ∈ ownKeysModel n then ownKeysModel n
            else ownKeysModel n ++ [name] := by
  cases op with
  | read name fresh =>
      by_cases hp : name ∈ passthroughNames
      · simp [applyOp, handlerGet, hp, ownKeysModel]
      · by_cases hk : name ∈ n.props.map Prod.fst
        · by_cases hu : isUndef (lookupD n.props name) = true
          · simp [applyOp, handlerGet, hp, hu, ownKeysModel, keys_setProp, hk]
          · simp [applyOp, handlerGet, hp, hu, ownKeysModel, hk]
        · have hnone : lookupProp n.props name = none :=
            (lookupProp_none_iff _ _).mpr hk
          simp [applyOp, handlerGet, hp, lookupD, hnone, isUndef,
            ownKeysModel, keys_setProp, hk]
  | write name v =>
      by_cases hk : name ∈ n.props.map Prod.fst <;>
        simp [applyOp, handlerSet, ownKeysModel, keys_setProp, hk]

/-- Key evolution under a sequence of member interactions. -/
theorem keys_applyOps (n : Node) (ops : List MemberOp) :
    ownKeysModel (applyOps n ops) = keysAfter (ownKeysModel n) ops := by
  induction ops generalizing n with
  | nil => rfl
  | cons op rest ih =>
      have h1 : applyOps n (op :: rest) = applyOps (applyOp n op) rest := rfl
      rw [h1, ih]
      cases op with
      | read name fresh =>
          by_cases hp : name ∈ passthroughNames ∨ name ∈ ownKeysModel n
          · rw [keys_applyOp]; simp [keysAfter, hp]
          · rw [keys_applyOp]; simp [keysAfter, hp]
      | write name v =>
          by_cases hk : name ∈ ownKeysModel n
          · rw [keys_applyOp]; simp [keysAfter, hk]
          · rw [keys_applyOp]; simp [keysAfter, hk]

/-- Counterexample to C10: a freshly generated node — whose child cache is
still empty, no member ever having been accessed or written — already
enumerates the recorder's own configuration surface (`Object.keys` of the
raw target includes the eleven own enumerable mock properties), so
enumeration is not "exactly the member names currently present in the
child cache" and does include the recorder's surface names. -/
theorem claim_C10_cex :
    "mockClear" ∈ ownKeysModel (freshNode 0)
    ∧ ownKeysModel (freshNode 0) ≠ [] := by
  decide

/-- C10 as amended: enumerating a node yields exactly the keys of its own
property table — the eleven recorder-surface names present from creation,
plus, in first-interaction order, exactly the member names added by child
caching or member writes (contract members never accessed are never
enumerated). -/
theorem claim_C10_amended :
    (∀ (n : Node) (ops : List MemberOp),
        ownKeysModel (applyOps n ops) = keysAfter (ownKeysModel n) ops)
    ∧ ownKeysModel (freshNode 0)
        = ["mock", "mockImplementation", "mockImplementationOnce",
           "mockReturnValue", "mockReturnValueOnce", "mockResolvedValue",
           "mockResolvedValueOnce", "mockRejectedValue",
           "mockRejectedValueOnce", "mockClear", "mockReset"] :=
  ⟨keys_applyOps, rfl⟩

/-! ### Claim C9 -/

/-- Counterexample to C9: `createMockWithDefaults` with the function-typed
entry `mockRestore` asks the façade to treat the `mockRestore` member —
which the proxy passes through and which is `undefined`, not a recorder —
as a recorder.  The claim requires a type-mismatch failure; the code
instead completes successfully and silently skips the entry. -/
theorem claim_C9_cex :
    createMockWithDefaults [("mockRestore", .func [])]
      = .ok (freshNode 0, [DEffect.skipped "mockRestore"]) := rfl

/-- C9 as amended: for every function-valued defaults entry the façade
checks the membership predicate on the child read through the proxy
before installing, installs the function as the child's persistent
behavior only when the predicate accepts the child, and when the child is
not a recorder it silently skips the entry without raising any error. -/
theorem claim_C9_amended (n : Node) (effs : List DEffect) (k : String)
    (fps : List (String × JSVal)) :
    (isMock (handlerGet n k (genChild (n.depth + 1))).2 = .ok false →
        applyDefault (.ok (n, effs)) (k, .func fps)
          = .ok ((handlerGet n k (genChild (n.depth + 1))).1,
                 effs ++ [.skipped k]))
    ∧ (isMock (handlerGet n k (genChild (n.depth + 1))).2 = .ok true →
        applyDefault (.ok (n, effs)) (k, .func fps)
          = .ok ((handlerGet n k (genChild (n.depth + 1))).1,
                 effs ++ [.installed k])) := by
  constructor <;> intro h <;> simp [applyDefault, typeofStr, h]

/-- Witness for C9 (amended) at the concrete silently-skipped entry. -/
theorem claim_C9_witness :
    applyDefault (.ok (freshNode 0, [])) ("mockRestore", .func [])
      = .ok (freshNode 0, [DEffect.skipped "mockRestore"]) :=
  (claim_C9_amended (freshNode 0) [] "mockRestore" []).1 rfl

end CMBun

